import Mathlib

/-!
Verification of the peergum/pi-sugar repository: a Go program driving the
PiSugar battery monitor over the BCM283x BSC (I2C) peripheral through a
forked go-rpio library.

The development shallowly embeds the repository's code:

* `i2c.go` (package rpio): register/mask constants, `I2cBegin`,
  `I2cChipSelectPolarity`, `I2cMode`, `I2cTransmit`, `I2cReceive`,
  `I2cExchange`, `setI2cDiv`, `clearI2cTxRxFifo`.
  Hardware registers are memory mapped (`i2cMem[...]`), so reads are not
  determined by prior writes; we model the observable behaviour of each
  operation as a trace of register accesses (`Ev`) plus, where the
  operation computes data, an explicit function of the hardware-supplied
  read values.
* `pi_sugar.go` (two revisions, package pi_sugar): the `PiSugar` state,
  `Refresh`, and the rolling-history helpers `appendInt` / `appendFloat64`.
  Go `float64` values are modelled by exact rationals; none of the proved
  properties depends on rounding.  Go's `int` is modelled by `Int`, `byte`
  and `uint32` by `Nat` (with explicit `% 2 ^ w` where a conversion
  truncates).  A Go slice expression that panics is modelled by `none`.
-/

namespace PiSugarVerif

/-! ### Register indices and bit masks (i2c.go) -/

/-- BSC register offsets, i2c.go `controlReg` ... `clockStretchTimeoutReg`. -/
def controlReg : Nat := 0

def statusReg : Nat := 1

def dataLengthReg : Nat := 2

def slaveAddressReg : Nat := 3

def dataFifoReg : Nat := 4

def clockDividerReg : Nat := 5

def dataDelayReg : Nat := 6

def clockStretchTimeoutReg : Nat := 7

/-- Status register bit masks, i2c.go lines 42-53 ("Register masks for BSC_S"). -/
def statusClockStretchTimeout : Nat := 0x00000200

def statusError : Nat := 0x00000100

def statusRXFull : Nat := 0x00000080

def statusTXFull : Nat := 0x00000040

def statusRXContainsData : Nat := 0x00000020

def statusTXAcceptsData : Nat := 0x00000010

def statusRXNeedsRead : Nat := 0x00000008

def statusTXNeedsWrite : Nat := 0x00000004

def statusTransferDone : Nat := 0x00000002

def statusTransferActive : Nat := 0x00000001

/-- i2c.go: `FIFOSize = 16`, the BSC FIFO depth. -/
def FIFOSize : Nat := 16

/-- i2c.go: `i2cClockDivider2500 = 2500` (100 kHz at a 250 MHz core clock). -/
def i2cClockDivider2500 : Nat := 2500

/-- Modelled from the spec: the i2c.go code addresses `i2cMem` through the
register names `csReg`, `fifoReg` and `clkDivReg`, whose numeric offsets are
defined in the base go-rpio library outside this repository; the spec's
Register Set only fixes that registers sit at fixed offsets.  We therefore
keep the registers the I2C code touches as an abstract enumeration. -/
inductive Reg : Type
  | cs : Reg
  | fifo : Reg
  | clkDiv : Reg
deriving DecidableEq, Repr

/-- One observable hardware-register access.  `waitBit r m` is a busy-wait
loop reading register `r` until one of the bits in mask `m` is set. -/
inductive Ev : Type
  | write : Reg → Nat → Ev
  | setBits : Reg → Nat → Ev
  | clearBits : Reg → Nat → Ev
  | waitBit : Reg → Nat → Ev
  | read : Reg → Ev
deriving DecidableEq, Repr

/-- i2c.go `I2cExchange` local constant: `ta = 1 << 7` (transfer active). -/
def ta : Nat := 1 <<< 7

/-- i2c.go `I2cExchange` local constant: `txd = 1 << 18`
(commented "tx fifo can accept data"). -/
def txd : Nat := 1 <<< 18

/-- i2c.go `I2cExchange` local constant: `rxd = 1 << 17`
(commented "rx fifo contains data"). -/
def rxd : Nat := 1 <<< 17

/-- i2c.go `I2cExchange` local constant: `done = 1 << 16`. -/
def done : Nat := 1 <<< 16

/-- i2c.go `clearI2cTxRxFifo` local constant: `clearTxRx = 1<<5 | 1<<4`. -/
def clearTxRx : Nat := 1 <<< 5 ||| 1 <<< 4

/-- i2c.go `clearI2cTxRxFifo`: `i2cMem[csReg] |= clearTxRx`. -/
def clearI2cTxRxFifo : List Ev := [Ev.setBits Reg.cs clearTxRx]

/-! ### The byte-exchange loop (i2c.go `I2cExchange`) -/

/-- The per-byte loop body of `I2cExchange`, for the remaining bytes of
`data` starting at index `i`.  `rx j` is the value the hardware returns for
the `j`-th read of `i2cMem[fifoReg]`.  Per byte the code busy-waits on
`txd`, writes `uint32(data[i])` to the FIFO register, busy-waits on `rxd`,
and overwrites `data[i]` with `byte(i2cMem[fifoReg])`.  Returns the final
buffer contents and the access trace. -/
def exchangeLoop (rx : Nat → Nat) : Nat → List Nat → List Nat × List Ev
  | _, [] => ([], [])
  | i, b :: rest =>
    let r := exchangeLoop rx (i + 1) rest
    ((rx i % 256) :: r.1,
      Ev.waitBit Reg.cs txd :: Ev.write Reg.fifo b ::
        Ev.waitBit Reg.cs rxd :: Ev.read Reg.fifo :: r.2)

/-- i2c.go `I2cExchange data`: clear both FIFOs, set TA, run the per-byte
loop, busy-wait on `done`, clear TA.  Result: final buffer contents (the
bytes received from the slave) and the register-access trace. -/
def I2cExchange (rx : Nat → Nat) (data : List Nat) : List Nat × List Ev :=
  let r := exchangeLoop rx 0 data
  (r.1,
    clearI2cTxRxFifo ++ [Ev.setBits Reg.cs ta] ++ r.2 ++
      [Ev.waitBit Reg.cs done, Ev.clearBits Reg.cs ta])

/-- i2c.go `I2cReceive n`: allocate `n` zero bytes, exchange, return them. -/
def I2cReceive (rx : Nat → Nat) (n : Nat) : List Nat × List Ev :=
  I2cExchange rx (List.replicate n 0)

/-! ### Slice-store model for `I2cTransmit` (i2c.go)

`I2cTransmit` is about Go aliasing: `I2cExchange` overwrites its argument
slice in place, and `I2cTransmit` protects the caller by passing a clone
(`append(data[:0:0], data...)`, which always allocates a fresh backing
array).  We model a heap of byte arrays as a list of lists; a slice is an
index into it. -/

/-- A heap of byte arrays; a slice reference is an index into the heap. -/
abbrev Store := List (List Nat)

/-- `I2cExchange` called on the slice `ref`: the backing array at `ref` is
overwritten in place with the received bytes. -/
def I2cExchangeInPlace (rx : Nat → Nat) (ref : Nat) (st : Store) : Store × List Ev :=
  let r := I2cExchange rx (st.getD ref [])
  (st.set ref r.1, r.2)

/-- i2c.go `I2cTransmit(data...)`: `append(data[:0:0], data...)` allocates a
fresh array holding a copy of the caller's bytes (here: appended at the end
of the heap), and `I2cExchange` runs on that fresh array. -/
def I2cTransmit (rx : Nat → Nat) (ref : Nat) (st : Store) : Store × List Ev :=
  I2cExchangeInPlace rx st.length (st ++ [st.getD ref []])

/-! ### Clock divider, chip-select polarity, mode (i2c.go) -/

/-- i2c.go `setI2cDiv` local constant: `divMask = 1<<16 - 1 - 1`. -/
def divMask : Nat := 1 <<< 16 - 1 - 1

/-- i2c.go `setI2cDiv div`: the value written to `i2cMem[clkDivReg]`,
namely `div & divMask`. -/
def setI2cDiv (div : Nat) : Nat := div &&& divMask

/-- i2c.go `I2cChipSelectPolarity(chip, polarity)` acting on the current
value `cs` of `i2cMem[csReg]`: no-op for `chip > 2`; otherwise clears
(`polarity == 0`) or sets bit `21 + chip`. -/
def I2cChipSelectPolarity (chip polarity : Nat) (cs : Nat) : Nat :=
  if chip > 2 then cs
  else
    let cspol := 1 <<< (21 + chip)
    if polarity = 0 then Nat.ldiff cs cspol else cs ||| cspol

/-- i2c.go `I2cMode(polarity, phase)` acting on the current value `cs` of
`i2cMem[csReg]`: clears/sets `cpol = 1 << 3`, then clears/sets
`cpha = 1 << 2`. -/
def I2cMode (polarity phase : Nat) (cs : Nat) : Nat :=
  let cpol := 1 <<< 3
  let cpha := 1 <<< 2
  let cs1 := if polarity = 0 then Nat.ldiff cs cpol else cs ||| cpol
  if phase = 0 then Nat.ldiff cs1 cpha else cs1 ||| cpha

/-! ### Bus lifecycle (i2c.go `I2cBegin`) -/

/-- i2c.go `I2cDev`: `I2c0`, `I2c1`, `I2c2`. -/
inductive I2cDev : Type
  | i2c0 : I2cDev
  | i2c1 : I2cDev
  | i2c2 : I2cDev
deriving DecidableEq, Repr

/-- i2c.go `getI2cPins`: only `I2c1` maps to real pins (SDA 2, SCL 3). -/
def getI2cPins : I2cDev → List Nat
  | I2cDev.i2c0 => []
  | I2cDev.i2c1 => [2, 3]
  | I2cDev.i2c2 => []

/-- i2c.go `I2cMapError`. -/
inductive I2cError : Type
  | mapError : I2cError
deriving DecidableEq, Repr

/-- Successful outcome of `I2cBegin`: the pins switched to I2C mode and the
value programmed into the clock-divider register. -/
structure BeginOk : Type where
  pins : List Nat
  divWritten : Nat
deriving DecidableEq, Repr

/-- i2c.go `I2cBegin dev`: writes 0 to `i2cMem[csReg]`, re-reads it
(`readBack` is the value the hardware returns), and returns `I2cMapError`
when that read-back is zero (`if i2cMem[csReg] == 0`).  Otherwise it puts
the device's pins into I2C mode and programs the clock divider to
`i2cClockDivider2500`.  (The diagnostic `i2cByteWaitMicroseconds`
computation is only logged and is not modelled.) -/
def I2cBegin (dev : I2cDev) (readBack : Nat) : Except I2cError BeginOk :=
  if readBack = 0 then Except.error I2cError.mapError
  else Except.ok ⟨getI2cPins dev, setI2cDiv i2cClockDivider2500⟩

/-! ### The PiSugar monitor (pi_sugar.go, both revisions) -/

/-- The result of one `I2cReadRegister(reg, buf, n)` call: the reason code
and the bytes deposited in `buf[0]`, `buf[1]`. -/
structure ReadResult : Type where
  code : Nat
  b0 : Nat
  b1 : Nat
deriving DecidableEq, Repr

/-- Go `int(f)` for a float64 `f`, float64 modelled as `ℚ`: truncation
toward zero. -/
def goIntTrunc (q : ℚ) : Int := q.num / (q.den : Int)

/-- pi_sugar.go `PiSugar` struct fields (v5 revision: `voltage float64`). -/
structure PiSugar1 : Type where
  voltage : ℚ
  charge : Int
  power : Bool
  charging : Bool
  model : Int
  temperature : Int
deriving DecidableEq, Repr

/-- The older `PiSugar` revision's `Refresh` (src/unnamed/part_002) uses the
same field set. -/
structure PiSugar2 : Type where
  voltage : ℚ
  charge : Int
  power : Bool
  charging : Bool
  model : Int
  temperature : Int
deriving DecidableEq, Repr

/-- pi_sugar.go (part_002) `Refresh`: four guarded register reads; a field
is assigned only when the read's reason code is 0. -/
def Refresh2 (s : PiSugar2) (tr vr cr pr : ReadResult) : PiSugar2 :=
  let s := if tr.code = 0 then { s with temperature := (tr.b0 : Int) - 40 } else s
  let s := if vr.code = 0 then
      { s with voltage := ((((vr.b0 <<< 8) ||| vr.b1 : Nat) : ℚ) / 1000) } else s
  let s := if cr.code = 0 then { s with charge := (cr.b0 : Int) } else s
  if pr.code = 0 then { s with power := decide (pr.b0 &&& 0x80 ≠ 0) } else s

/-- pi_sugar.go constants: history window sizes. -/
def secondsInAMinute : Nat := 60

def minutesInAnHour : Nat := 60

def hoursInADay : Nat := 24

def numberOfDays : Nat := 7

/-- Go slice expression `s[low:]` (default high = len): panics unless
`low ≤ len(s)`. -/
def goSliceFrom {α : Type} (s : List α) (low : Nat) : Option (List α) :=
  if low ≤ s.length then some (s.drop low) else none

/-- pi_sugar.go `appendInt(table, value, maxSize)`: drop the first element
when the table is full, then append the new value.  `none` models the Go
panic of `table[1:]` on an empty table (reachable only when
`maxSize = 0`). -/
def appendInt (table : List Int) (value : Int) (maxSize : Nat) : Option (List Int) :=
  let firstElement := if table.length = maxSize then 1 else 0
  (goSliceFrom table firstElement).map (fun t => t ++ [value])

/-- pi_sugar.go `appendFloat64`, float64 modelled as `ℚ`. -/
def appendFloat64 (table : List ℚ) (value : ℚ) (maxSize : Nat) : Option (List ℚ) :=
  let firstElement := if table.length = maxSize then 1 else 0
  (goSliceFrom table firstElement).map (fun t => t ++ [value])

/-- pi_sugar.go `avgInt`: sum in float64 (here `ℚ`) divided by the length. -/
def avgInt (table : List Int) : ℚ :=
  (table.foldl (fun a v => a + (v : ℚ)) 0) / (table.length : ℚ)

/-- pi_sugar.go `avgFloat64`. -/
def avgFloat64 (table : List ℚ) : ℚ :=
  (table.foldl (fun a v => a + v) 0) / (table.length : ℚ)

/-- The global history tables and tick counter of pi_sugar.go (v5). -/
structure History : Type where
  lastMinuteCharge : List Int
  lastHourCharge : List ℚ
  lastDayCharge : List ℚ
  lastMinuteVoltage : List ℚ
  lastHourVoltage : List ℚ
  lastDayVoltage : List ℚ
  lastMinuteTemperature : List Int
  lastHourTemperature : List ℚ
  lastDayTemperature : List ℚ
  counter : Int
deriving DecidableEq, Repr

/-- pi_sugar.go (part_001) `Refresh`, temperature block, hour/day history
part: executed once a minute (`counter%60 == 0`) resp. once every 1440
ticks. -/
def tempHistory (counter : Int) (lmt : List Int) (h : History) : Option History :=
  if counter % 60 = 0 then do
    let lht ← appendFloat64 h.lastHourTemperature (avgInt lmt) minutesInAnHour
    let h := { h with lastHourTemperature := lht }
    if counter % 1440 = 0 then do
      let ldt ← appendFloat64 h.lastDayTemperature (avgFloat64 lht)
        (numberOfDays * hoursInADay)
      pure { h with lastDayTemperature := ldt }
    else pure h
  else pure h

/-- pi_sugar.go (part_001) `Refresh`, temperature block: executed only when
the temperature read's code is 0. -/
def tempBlock (counter : Int) (tr : ReadResult) (sh : PiSugar1 × History) :
    Option (PiSugar1 × History) :=
  if tr.code = 0 then
    match appendInt sh.2.lastMinuteTemperature ((tr.b0 : Int) - 40) secondsInAMinute with
    | none => none
    | some lmt =>
      match tempHistory counter lmt { sh.2 with lastMinuteTemperature := lmt } with
      | none => none
      | some h => some ({ sh.1 with temperature := goIntTrunc (avgInt lmt) }, h)
  else pure sh

/-- pi_sugar.go (part_001) `Refresh`, voltage block, hour/day history
part. -/
def voltHistory (counter : Int) (lmv : List ℚ) (h : History) : Option History :=
  if counter % 60 = 0 then do
    let lhv ← appendFloat64 h.lastHourVoltage (avgFloat64 lmv) minutesInAnHour
    let h := { h with lastHourVoltage := lhv }
    if counter % 1440 = 0 then do
      let ldv ← appendFloat64 h.lastDayVoltage (avgFloat64 lhv)
        (numberOfDays * hoursInADay)
      pure { h with lastDayVoltage := ldv }
    else pure h
  else pure h

/-- pi_sugar.go (part_001) `Refresh`, voltage block. -/
def voltBlock (counter : Int) (vr : ReadResult) (sh : PiSugar1 × History) :
    Option (PiSugar1 × History) :=
  if vr.code = 0 then
    match appendFloat64 sh.2.lastMinuteVoltage
        ((((vr.b0 <<< 8) ||| vr.b1 : Nat) : ℚ) / 1000) secondsInAMinute with
    | none => none
    | some lmv =>
      match voltHistory counter lmv { sh.2 with lastMinuteVoltage := lmv } with
      | none => none
      | some h => some ({ sh.1 with voltage := avgFloat64 lmv }, h)
  else pure sh

/-- pi_sugar.go (part_001) `Refresh`, battery-charge block, hour/day
history part. -/
def chargeHistory (counter : Int) (lmc : List Int) (h : History) : Option History :=
  if counter % 60 = 0 then do
    let lhc ← appendFloat64 h.lastHourCharge (avgInt lmc) minutesInAnHour
    let h := { h with lastHourCharge := lhc }
    if counter % 1440 = 0 then do
      let ldc ← appendFloat64 h.lastDayCharge (avgFloat64 lhc)
        (numberOfDays * hoursInADay)
      pure { h with lastDayCharge := ldc }
    else pure h
  else pure h

/-- pi_sugar.go (part_001) `Refresh`, battery-charge block. -/
def chargeBlock (counter : Int) (cr : ReadResult) (sh : PiSugar1 × History) :
    Option (PiSugar1 × History) :=
  if cr.code = 0 then
    match appendInt sh.2.lastMinuteCharge (cr.b0 : Int) secondsInAMinute with
    | none => none
    | some lmc =>
      match chargeHistory counter lmc { sh.2 with lastMinuteCharge := lmc } with
      | none => none
      | some h => some ({ sh.1 with charge := goIntTrunc (avgInt lmc) }, h)
  else pure sh

/-- pi_sugar.go (part_001) `Refresh`, power block (`buf[0]&0x80 != 0`). -/
def powerBlock (pr : ReadResult) (sh : PiSugar1 × History) : PiSugar1 × History :=
  if pr.code = 0 then ({ sh.1 with power := decide (pr.b0 &&& 0x80 ≠ 0) }, sh.2)
  else sh

/-- pi_sugar.go (part_001) `Refresh`: `counter++`, then the four guarded
read blocks in source order.  `tr vr cr pr` are the four
`I2cReadRegister` outcomes (temperature, voltage, charge, power). -/
def Refresh1 (s : PiSugar1) (h : History) (tr vr cr pr : ReadResult) :
    Option (PiSugar1 × History) :=
  let counter := h.counter + 1
  match tempBlock counter tr (s, { h with counter := counter }) with
  | none => none
  | some sh =>
    match voltBlock counter vr sh with
    | none => none
    | some sh =>
      match chargeBlock counter cr sh with
      | none => none
      | some sh => some (powerBlock pr sh)

/-- Does an event touch the FIFO data register? -/
def isFifoEv : Ev → Bool
  | Ev.write Reg.fifo _ => true
  | Ev.read Reg.fifo => true
  | _ => false

/-! ## Theorems -/

/-- C1: the claim says the per-byte transmit wait polls mask `0x10`
(`statusTXAcceptsData`), the per-byte receive wait polls mask `0x20`
(`statusRXContainsData`) and the final wait polls mask `0x02`
(`statusTransferDone`) of the status register.  Evaluating `I2cExchange` on
a one-byte buffer shows the code instead busy-waits on masks `1<<18`,
`1<<17` and `1<<16` of `i2cMem[csReg]` — the SPI-style combined-register
bits — contradicting the status-mask constants the file itself defines. -/
theorem I2cExchange_waits_use_spi_masks :
    (I2cExchange (fun _ => 0) [0]).2 =
      [Ev.setBits Reg.cs clearTxRx, Ev.setBits Reg.cs ta,
        Ev.waitBit Reg.cs txd, Ev.write Reg.fifo 0,
        Ev.waitBit Reg.cs rxd, Ev.read Reg.fifo,
        Ev.waitBit Reg.cs done, Ev.clearBits Reg.cs ta] ∧
    txd ≠ statusTXAcceptsData ∧ rxd ≠ statusRXContainsData ∧
      done ≠ statusTransferDone := by
  exact ⟨rfl, by decide, by decide, by decide⟩

/-- C2 counterexample: the claim says `Begin` fails with the mapping error
exactly when the control-register read-back is not zero and proceeds when
it is zero.  The code does the opposite: read-back 0 yields `I2cMapError`,
read-back 1 succeeds. -/
theorem I2cBegin_zero_readback_fails :
    I2cBegin I2cDev.i2c1 0 = Except.error I2cError.mapError ∧
    I2cBegin I2cDev.i2c1 1 = Except.ok ⟨[2, 3], 2500⟩ :=
  ⟨rfl, rfl⟩

/-- C2 (amended): `Begin(busId)` writes zero to the control register,
re-reads it, and fails with the mapping error exactly when the read-back IS
zero; when it is nonzero it proceeds (configures the device's pins and
programs the clock divider) and returns success. -/
theorem I2cBegin_spec (dev : I2cDev) (readBack : Nat) :
    (readBack = 0 → I2cBegin dev readBack = Except.error I2cError.mapError) ∧
    (readBack ≠ 0 →
      I2cBegin dev readBack =
        Except.ok ⟨getI2cPins dev, setI2cDiv i2cClockDivider2500⟩) := by
  refine ⟨fun h => ?_, fun h => ?_⟩ <;> simp [I2cBegin, h]

/-- Witness for `I2cBegin_spec` at read-backs 0 and 5. -/
theorem I2cBegin_spec_witness :
    I2cBegin I2cDev.i2c1 0 = Except.error I2cError.mapError ∧
    I2cBegin I2cDev.i2c1 5 =
      Except.ok ⟨getI2cPins I2cDev.i2c1, setI2cDiv i2cClockDivider2500⟩ :=
  ⟨(I2cBegin_spec I2cDev.i2c1 0).1 rfl, (I2cBegin_spec I2cDev.i2c1 5).2 (by decide)⟩

/-- `n & 0xFFFE` keeps bits 1..15 of `n`: it equals `2 * (n / 2 % 2 ^ 15)`. -/
theorem land_65534 (n : Nat) : n &&& 65534 = 2 * (n / 2 % 2 ^ 15) := by
  apply Nat.eq_of_testBit_eq
  intro i
  cases i with
  | zero =>
    rw [Nat.testBit_land]
    have h1 : Nat.testBit 65534 0 = false := by decide
    have h2 : Nat.testBit (2 * (n / 2 % 2 ^ 15)) 0 = false := by
      rw [Nat.testBit_zero]
      simp [Nat.mul_mod_right]
    rw [h1, h2, Bool.and_false]
  | succ i =>
    rw [Nat.testBit_land, Nat.testBit_succ n i, Nat.testBit_succ 65534 i,
      Nat.testBit_succ (2 * (n / 2 % 2 ^ 15)) i]
    have h2m : 2 * (n / 2 % 2 ^ 15) / 2 = n / 2 % 2 ^ 15 := by omega
    have h65534 : (65534 : Nat) / 2 = 2 ^ 15 - 1 := by norm_num
    rw [h2m, h65534, Nat.testBit_two_pow_sub_one, Nat.testBit_mod_two_pow,
      Bool.and_comm]

/-- C4 counterexample: at requested divider `65536` the programmed value is
`0`, while `65536` rounded down to the nearest even number is `65536`
itself — the claim's "programmed value equals the requested divider rounded
down to the nearest even number" fails because `& divMask` also truncates
to 16 bits. -/
theorem setI2cDiv_65536_counterexample :
    setI2cDiv 65536 = 0 ∧ 65536 - 65536 % 2 = 65536 ∧
      setI2cDiv 65536 ≠ 65536 - 65536 % 2 := by
  refine ⟨by decide, by decide, by decide⟩

/-- C4 (amended): for every requested divider, `setI2cDiv` programs an even
value that fits in 16 bits and never exceeds the request; the programmed
value is the request truncated to its low 16 bits and rounded down to the
nearest even number, which for requests below `2 ^ 16` is exactly the
request rounded down to the nearest even number. -/
theorem setI2cDiv_spec (div : Nat) :
    setI2cDiv div % 2 = 0 ∧
    setI2cDiv div < 2 ^ 16 ∧
    setI2cDiv div ≤ div ∧
    setI2cDiv div = setI2cDiv (div % 2 ^ 16) ∧
    (div < 2 ^ 16 → setI2cDiv div = div - div % 2) := by
  have e15 : (2 : Nat) ^ 15 = 32768 := by norm_num
  have e16 : (2 : Nat) ^ 16 = 65536 := by norm_num
  have hmask : divMask = 65534 := by decide
  have h1 : setI2cDiv div = 2 * (div / 2 % 32768) := by
    rw [setI2cDiv, hmask, land_65534, e15]
  have h2 : setI2cDiv (div % 2 ^ 16) = 2 * (div % 65536 / 2 % 32768) := by
    rw [setI2cDiv, hmask, land_65534, e15, e16]
  rw [h1, h2, e16]
  exact ⟨by omega, by omega, by omega, by omega, fun hlt => by omega⟩

/-- Witness for `setI2cDiv_spec` at the odd request 2501. -/
theorem setI2cDiv_spec_witness :
    (2501 : Nat) < 2 ^ 16 ∧ setI2cDiv 2501 = 2501 - 2501 % 2 :=
  ⟨by decide, (setI2cDiv_spec 2501).2.2.2.2 (by decide)⟩

/-- C5: for chip 0-2, `I2cChipSelectPolarity(chip, polarity)` sets
(`polarity` nonzero) or clears (`polarity` zero) exactly control-register
bit `21 + chip` and leaves every other bit unchanged; for chip values above
2 the control register is entirely unchanged. -/
theorem I2cChipSelectPolarity_spec (chip polarity cs k : Nat) :
    (chip ≤ 2 →
      ((I2cChipSelectPolarity chip polarity cs).testBit (21 + chip) =
          decide (polarity ≠ 0)) ∧
      (k ≠ 21 + chip →
        (I2cChipSelectPolarity chip polarity cs).testBit k = cs.testBit k)) ∧
    (2 < chip → I2cChipSelectPolarity chip polarity cs = cs) := by
  have hshift : (1 <<< (21 + chip) : Nat) = 2 ^ (21 + chip) := by
    rw [Nat.shiftLeft_eq, one_mul]
  have hself : (1 <<< (21 + chip) : Nat).testBit (21 + chip) = true := by
    rw [hshift]
    exact Nat.testBit_two_pow_self
  have hother : k ≠ 21 + chip → (1 <<< (21 + chip) : Nat).testBit k = false := by
    intro hk
    rw [hshift]
    exact Nat.testBit_two_pow_of_ne (fun h => hk h.symm)
  refine ⟨fun hchip => ?_, fun hchip => ?_⟩
  · have hgt : ¬ chip > 2 := by omega
    by_cases hp : polarity = 0
    · refine ⟨?_, fun hk => ?_⟩
      · simp [I2cChipSelectPolarity, hgt, hp, Nat.testBit_ldiff, hself]
      · simp [I2cChipSelectPolarity, hgt, hp, Nat.testBit_ldiff, hother hk]
    · refine ⟨?_, fun hk => ?_⟩
      · simp [I2cChipSelectPolarity, hgt, hp, Nat.testBit_lor, hself]
      · simp [I2cChipSelectPolarity, hgt, hp, Nat.testBit_lor, hother hk]
  · simp [I2cChipSelectPolarity, hchip]

/-- Witness for `I2cChipSelectPolarity_spec`: chip 1, polarity 1, prior
register value 5, other bit 0, and the no-op for chip 7. -/
theorem I2cChipSelectPolarity_spec_witness :
    ((I2cChipSelectPolarity 1 1 5).testBit 22 = decide ((1 : Nat) ≠ 0)) ∧
    ((I2cChipSelectPolarity 1 1 5).testBit 0 = (5 : Nat).testBit 0) ∧
    I2cChipSelectPolarity 7 1 5 = 5 :=
  ⟨((I2cChipSelectPolarity_spec 1 1 5 0).1 (by decide)).1,
    ((I2cChipSelectPolarity_spec 1 1 5 0).1 (by decide)).2 (by decide),
    (I2cChipSelectPolarity_spec 7 1 5 0).2 (by decide)⟩

/-- C8: after `I2cMode(0,0)` bits 2 and 3 of the control register are 0,
after `I2cMode(1,1)` both are 1, and in both cases every other bit keeps
its prior value. -/
theorem I2cMode_spec (cs k : Nat) :
    ((I2cMode 0 0 cs).testBit 2 = false ∧ (I2cMode 0 0 cs).testBit 3 = false) ∧
    ((I2cMode 1 1 cs).testBit 2 = true ∧ (I2cMode 1 1 cs).testBit 3 = true) ∧
    (k ≠ 2 → k ≠ 3 →
      ((I2cMode 0 0 cs).testBit k = cs.testBit k ∧
        (I2cMode 1 1 cs).testBit k = cs.testBit k)) := by
  have t82 : Nat.testBit 8 2 = false := by decide
  have t83 : Nat.testBit 8 3 = true := by decide
  have t42 : Nat.testBit 4 2 = true := by decide
  have t43 : Nat.testBit 4 3 = false := by decide
  refine ⟨⟨?_, ?_⟩, ⟨?_, ?_⟩, fun hk2 hk3 => ?_⟩
  · simp [I2cMode, Nat.testBit_ldiff, t82, t42]
  · simp [I2cMode, Nat.testBit_ldiff, t83, t43]
  · simp [I2cMode, Nat.testBit_lor, t82, t42]
  · simp [I2cMode, Nat.testBit_lor, t83, t43]
  · have t8k : Nat.testBit 8 k = false := by
      rw [show (8 : Nat) = 2 ^ 3 by norm_num]
      exact Nat.testBit_two_pow_of_ne (fun h => hk3 h.symm)
    have t4k : Nat.testBit 4 k = false := by
      rw [show (4 : Nat) = 2 ^ 2 by norm_num]
      exact Nat.testBit_two_pow_of_ne (fun h => hk2 h.symm)
    constructor <;>
      simp [I2cMode, Nat.testBit_ldiff, Nat.testBit_lor, t8k, t4k]

/-- Witness for `I2cMode_spec`: prior value 12 (bits 2 and 3 set), other
bit 5. -/
theorem I2cMode_spec_witness :
    (I2cMode 0 0 12).testBit 2 = false ∧
    ((I2cMode 0 0 12).testBit 5 = (12 : Nat).testBit 5 ∧
      (I2cMode 1 1 12).testBit 5 = (12 : Nat).testBit 5) :=
  ⟨(I2cMode_spec 12 5).1.1, (I2cMode_spec 12 5).2.2 (by decide) (by decide)⟩

/-- The FIFO-register accesses of the exchange loop, in order: one write of
each pending byte followed by one read, per byte. -/
theorem exchangeLoop_filter_fifo (rx : Nat → Nat) (data : List Nat) :
    ∀ i, ((exchangeLoop rx i data).2.filter isFifoEv) =
      data.flatMap (fun b => [Ev.write Reg.fifo b, Ev.read Reg.fifo]) := by
  induction data with
  | nil => intro i; simp [exchangeLoop]
  | cons b rest ih =>
    intro i
    simp [exchangeLoop, isFifoEv, ih (i + 1), List.flatMap_cons]

/-- The exchange loop busy-waits on `txd` once per byte. -/
theorem exchangeLoop_count_txd (rx : Nat → Nat) (data : List Nat) :
    ∀ i, ((exchangeLoop rx i data).2.count (Ev.waitBit Reg.cs txd)) = data.length := by
  have hne : rxd ≠ txd := by decide
  induction data with
  | nil => intro i; simp [exchangeLoop]
  | cons b rest ih =>
    intro i
    simp [exchangeLoop, ih (i + 1), List.count_cons, hne]

/-- The exchange loop busy-waits on `rxd` once per byte. -/
theorem exchangeLoop_count_rxd (rx : Nat → Nat) (data : List Nat) :
    ∀ i, ((exchangeLoop rx i data).2.count (Ev.waitBit Reg.cs rxd)) = data.length := by
  have hne : txd ≠ rxd := by decide
  induction data with
  | nil => intro i; simp [exchangeLoop]
  | cons b rest ih =>
    intro i
    simp [exchangeLoop, ih (i + 1), List.count_cons, hne]

/-- FIFO accesses of a whole `I2cExchange` call: exactly the per-byte
write/read alternation; the prologue and epilogue never touch the FIFO. -/
theorem I2cExchange_filter_fifo (rx : Nat → Nat) (data : List Nat) :
    ((I2cExchange rx data).2.filter isFifoEv) =
      data.flatMap (fun b => [Ev.write Reg.fifo b, Ev.read Reg.fifo]) := by
  simp [I2cExchange, clearI2cTxRxFifo, List.filter_append, isFifoEv,
    exchangeLoop_filter_fifo rx data 0]

/-- C3: for every buffer, the data-FIFO register accesses of `I2cExchange`
are exactly `length data` writes and `length data` reads in strict per-byte
alternation (the write for position i precedes the read for position i,
which precedes any FIFO access for position i+1), and there are exactly
`length data` transmit waits and `length data` receive waits.  For the
empty buffer the FIFO register is never touched. -/
theorem I2cExchange_fifo_pattern (rx : Nat → Nat) (data : List Nat) :
    ((I2cExchange rx data).2.filter isFifoEv) =
      data.flatMap (fun b => [Ev.write Reg.fifo b, Ev.read Reg.fifo]) ∧
    ((I2cExchange rx data).2.count (Ev.waitBit Reg.cs txd)) = data.length ∧
    ((I2cExchange rx data).2.count (Ev.waitBit Reg.cs rxd)) = data.length := by
  have h1 : Ev.waitBit Reg.cs done ≠ Ev.waitBit Reg.cs txd := by decide
  have h2 : Ev.waitBit Reg.cs done ≠ Ev.waitBit Reg.cs rxd := by decide
  refine ⟨I2cExchange_filter_fifo rx data, ?_, ?_⟩ <;>
    simp [I2cExchange, clearI2cTxRxFifo, List.count_append, List.count_cons,
      exchangeLoop_count_txd rx data 0, exchangeLoop_count_rxd rx data 0, h1, h2]

/-- The exchange loop returns one received byte per pending byte. -/
theorem exchangeLoop_length (rx : Nat → Nat) (data : List Nat) :
    ∀ i, (exchangeLoop rx i data).1.length = data.length := by
  induction data with
  | nil => intro i; simp [exchangeLoop]
  | cons b rest ih => intro i; simp [exchangeLoop, ih (i + 1)]

/-- C6: `I2cReceive n` returns a byte sequence of length exactly `n`, and
every byte written to the data-FIFO register during the call is zero. -/
theorem I2cReceive_spec (rx : Nat → Nat) (n : Nat) :
    (I2cReceive rx n).1.length = n ∧
    (∀ v : Nat, Ev.write Reg.fifo v ∈ (I2cReceive rx n).2 → v = 0) := by
  constructor
  · simp [I2cReceive, I2cExchange, exchangeLoop_length]
  · intro v hv
    have hf : Ev.write Reg.fifo v ∈ ((I2cReceive rx n).2.filter isFifoEv) :=
      List.mem_filter.mpr ⟨hv, by simp [isFifoEv]⟩
    have hrw : ((I2cReceive rx n).2.filter isFifoEv) =
        (List.replicate n 0).flatMap
          (fun b => [Ev.write Reg.fifo b, Ev.read Reg.fifo]) :=
      I2cExchange_filter_fifo rx (List.replicate n 0)
    rw [hrw] at hf
    rcases List.mem_flatMap.mp hf with ⟨b, hb, hmem⟩
    have hb0 : b = 0 := List.eq_of_mem_replicate hb
    simp at hmem
    omega

/-- Witness for `I2cReceive_spec` at n = 3. -/
theorem I2cReceive_spec_witness :
    (I2cReceive (fun _ => 7) 3).1.length = 3 ∧ (0 : Nat) = 0 :=
  ⟨(I2cReceive_spec (fun _ => 7) 3).1,
    (I2cReceive_spec (fun _ => 7) 3).2 0 (by decide)⟩

/-- C7: `I2cTransmit` exchanges a freshly allocated clone of the caller's
byte array, so the caller's array is unchanged after the call. -/
theorem I2cTransmit_preserves_caller (rx : Nat → Nat) (ref : Nat) (st : Store)
    (h : ref < st.length) :
    (I2cTransmit rx ref st).1[ref]? = st[ref]? := by
  unfold I2cTransmit I2cExchangeInPlace
  rw [List.getElem?_set_ne (by omega)]
  exact List.getElem?_append_left h

/-- Witness for `I2cTransmit_preserves_caller` on a one-array heap. -/
theorem I2cTransmit_preserves_caller_witness :
    (I2cTransmit (fun _ => 9) 0 [[1, 2]]).1[0]? = ([[1, 2]] : Store)[0]? :=
  I2cTransmit_preserves_caller (fun _ => 9) 0 [[1, 2]] (by decide)

/-- C10 counterexample: at `maxSize = 0` with an empty table the code
panics (Go slice expression `table[1:]` on a slice of length 0), so no
sequence of length `min (0 + 1) 0 = 0` ending in the new value is
returned. -/
theorem append_window_maxSize_zero_counterexample :
    appendInt [] 5 0 = none ∧ appendFloat64 [] 5 0 = none :=
  ⟨rfl, rfl⟩

/-- The common body of `appendInt` and `appendFloat64`: with a positive
window bound and a table within the bound, the result has length
`min (length + 1) maxSize`, ends in the new value, and drops the oldest
element when the table is full. -/
theorem appendCore_spec {α : Type} (t : List α) (v : α) (m : Nat) (hm : 1 ≤ m)
    (hl : t.length ≤ m) :
    ((goSliceFrom t (if t.length = m then 1 else 0)).map
        (fun l => l ++ [v])).map List.length = some (min (t.length + 1) m) ∧
    ((goSliceFrom t (if t.length = m then 1 else 0)).map
        (fun l => l ++ [v])).bind List.getLast? = some v ∧
    (t.length = m →
      (goSliceFrom t (if t.length = m then 1 else 0)).map (fun l => l ++ [v]) =
        some (t.tail ++ [v])) := by
  by_cases hfull : t.length = m
  · have h1 : goSliceFrom t 1 = some t.tail := by
      rw [goSliceFrom, if_pos (by omega), List.drop_one]
    refine ⟨?_, ?_, fun _ => ?_⟩ <;>
      simp [hfull, h1, List.getLast?_concat] <;> omega
  · have h0 : goSliceFrom t 0 = some t := by
      rw [goSliceFrom, if_pos (by omega)]
      simp
    refine ⟨?_, ?_, fun hc => absurd hc hfull⟩ <;>
      simp [hfull, h0, List.getLast?_concat] <;> omega

/-- C10 (amended): for every table within a positive window bound
(`1 ≤ maxSize` and `length ≤ maxSize`), `appendInt` and `appendFloat64`
return a sequence of length `min (length + 1) maxSize` whose last element
is the new value; when the table is already at `maxSize` the oldest (first)
element is dropped, so no history window ever grows past its bound. -/
theorem append_window_spec (ti : List Int) (vi : Int) (tq : List ℚ) (vq : ℚ)
    (m : Nat) (hm : 1 ≤ m) (hi : ti.length ≤ m) (hq : tq.length ≤ m) :
    ((appendInt ti vi m).map List.length = some (min (ti.length + 1) m) ∧
      (appendInt ti vi m).bind List.getLast? = some vi ∧
      (ti.length = m → appendInt ti vi m = some (ti.tail ++ [vi]))) ∧
    ((appendFloat64 tq vq m).map List.length = some (min (tq.length + 1) m) ∧
      (appendFloat64 tq vq m).bind List.getLast? = some vq ∧
      (tq.length = m → appendFloat64 tq vq m = some (tq.tail ++ [vq]))) :=
  ⟨appendCore_spec ti vi m hm hi, appendCore_spec tq vq m hm hq⟩

/-- Witness for `append_window_spec` on a full two-element window. -/
theorem append_window_spec_witness :
    (appendInt [1, 2] 5 2).map List.length = some (min ([1, 2].length + 1) 2) :=
  (append_window_spec [1, 2] 5 [] 0 2 (by decide) (by decide) (by decide)).1.1

/-- A failed temperature read leaves the whole temperature block alone. -/
theorem tempBlock_skip (counter : Int) (tr : ReadResult) (sh : PiSugar1 × History)
    (hc : tr.code ≠ 0) : tempBlock counter tr sh = some sh := by
  unfold tempBlock
  rw [if_neg hc]
  rfl

/-- A failed voltage read leaves the whole voltage block alone. -/
theorem voltBlock_skip (counter : Int) (vr : ReadResult) (sh : PiSugar1 × History)
    (hc : vr.code ≠ 0) : voltBlock counter vr sh = some sh := by
  unfold voltBlock
  rw [if_neg hc]
  rfl

/-- A failed charge read leaves the whole charge block alone. -/
theorem chargeBlock_skip (counter : Int) (cr : ReadResult) (sh : PiSugar1 × History)
    (hc : cr.code ≠ 0) : chargeBlock counter cr sh = some sh := by
  unfold chargeBlock
  rw [if_neg hc]
  rfl

/-- A failed power read leaves the power block alone. -/
theorem powerBlock_skip (pr : ReadResult) (sh : PiSugar1 × History)
    (hc : pr.code ≠ 0) : powerBlock pr sh = sh := by
  unfold powerBlock
  rw [if_neg hc]

/-- The temperature block never touches the voltage, charge or power
fields. -/
theorem tempBlock_frame (counter : Int) (tr : ReadResult)
    (sh sh' : PiSugar1 × History) (heq : tempBlock counter tr sh = some sh') :
    sh'.1.voltage = sh.1.voltage ∧ sh'.1.charge = sh.1.charge ∧
      sh'.1.power = sh.1.power := by
  by_cases hc : tr.code = 0
  · unfold tempBlock at heq
    rw [if_pos hc] at heq
    cases happ : appendInt sh.2.lastMinuteTemperature ((tr.b0 : Int) - 40)
        secondsInAMinute with
    | none => rw [happ] at heq; simp at heq
    | some lmt =>
      rw [happ] at heq
      dsimp only at heq
      cases hh : tempHistory counter lmt { sh.2 with lastMinuteTemperature := lmt } with
      | none => rw [hh] at heq; simp at heq
      | some h2 =>
        rw [hh] at heq
        dsimp only at heq
        simp only [Option.some.injEq] at heq
        rw [← heq]
        exact ⟨rfl, rfl, rfl⟩
  · rw [tempBlock_skip counter tr sh hc] at heq
    obtain rfl := Option.some.inj heq
    exact ⟨rfl, rfl, rfl⟩

/-- The voltage block never touches the temperature, charge or power
fields. -/
theorem voltBlock_frame (counter : Int) (vr : ReadResult)
    (sh sh' : PiSugar1 × History) (heq : voltBlock counter vr sh = some sh') :
    sh'.1.temperature = sh.1.temperature ∧ sh'.1.charge = sh.1.charge ∧
      sh'.1.power = sh.1.power := by
  by_cases hc : vr.code = 0
  · unfold voltBlock at heq
    rw [if_pos hc] at heq
    cases happ : appendFloat64 sh.2.lastMinuteVoltage
        ((((vr.b0 <<< 8) ||| vr.b1 : Nat) : ℚ) / 1000) secondsInAMinute with
    | none => rw [happ] at heq; simp at heq
    | some lmv =>
      rw [happ] at heq
      dsimp only at heq
      cases hh : voltHistory counter lmv { sh.2 with lastMinuteVoltage := lmv } with
      | none => rw [hh] at heq; simp at heq
      | some h2 =>
        rw [hh] at heq
        dsimp only at heq
        simp only [Option.some.injEq] at heq
        rw [← heq]
        exact ⟨rfl, rfl, rfl⟩
  · rw [voltBlock_skip counter vr sh hc] at heq
    obtain rfl := Option.some.inj heq
    exact ⟨rfl, rfl, rfl⟩

/-- The charge block never touches the temperature, voltage or power
fields. -/
theorem chargeBlock_frame (counter : Int) (cr : ReadResult)
    (sh sh' : PiSugar1 × History) (heq : chargeBlock counter cr sh = some sh') :
    sh'.1.temperature = sh.1.temperature ∧ sh'.1.voltage = sh.1.voltage ∧
      sh'.1.power = sh.1.power := by
  by_cases hc : cr.code = 0
  · unfold chargeBlock at heq
    rw [if_pos hc] at heq
    cases happ : appendInt sh.2.lastMinuteCharge (cr.b0 : Int) secondsInAMinute with
    | none => rw [happ] at heq; simp at heq
    | some lmc =>
      rw [happ] at heq
      dsimp only at heq
      cases hh : chargeHistory counter lmc { sh.2 with lastMinuteCharge := lmc } with
      | none => rw [hh] at heq; simp at heq
      | some h2 =>
        rw [hh] at heq
        dsimp only at heq
        simp only [Option.some.injEq] at heq
        rw [← heq]
        exact ⟨rfl, rfl, rfl⟩
  · rw [chargeBlock_skip counter cr sh hc] at heq
    obtain rfl := Option.some.inj heq
    exact ⟨rfl, rfl, rfl⟩

/-- The power block never touches the temperature, voltage or charge
fields. -/
theorem powerBlock_frame (pr : ReadResult) (sh : PiSugar1 × History) :
    (powerBlock pr sh).1.temperature = sh.1.temperature ∧
    (powerBlock pr sh).1.voltage = sh.1.voltage ∧
    (powerBlock pr sh).1.charge = sh.1.charge := by
  by_cases hc : pr.code = 0 <;> simp [powerBlock, hc]

/-- C9: in both revisions of `Refresh`, each PiSugar field (temperature,
voltage, charge, power) is updated only when the corresponding register
read returns reason code 0; when a read returns a nonzero code, that field
keeps the value it had before the call. -/
theorem Refresh_error_preserves_fields
    (s2 : PiSugar2) (s1 : PiSugar1) (h : History) (tr vr cr pr : ReadResult)
    (s1' : PiSugar1) (h' : History) :
    ((tr.code ≠ 0 → (Refresh2 s2 tr vr cr pr).temperature = s2.temperature) ∧
      (vr.code ≠ 0 → (Refresh2 s2 tr vr cr pr).voltage = s2.voltage) ∧
      (cr.code ≠ 0 → (Refresh2 s2 tr vr cr pr).charge = s2.charge) ∧
      (pr.code ≠ 0 → (Refresh2 s2 tr vr cr pr).power = s2.power)) ∧
    (Refresh1 s1 h tr vr cr pr = some (s1', h') →
      ((tr.code ≠ 0 → s1'.temperature = s1.temperature) ∧
        (vr.code ≠ 0 → s1'.voltage = s1.voltage) ∧
        (cr.code ≠ 0 → s1'.charge = s1.charge) ∧
        (pr.code ≠ 0 → s1'.power = s1.power))) := by
  constructor
  · refine ⟨fun htr => ?_, fun hvr => ?_, fun hcr => ?_, fun hpr => ?_⟩
    · simp only [Refresh2, if_neg htr]
      split_ifs <;> rfl
    · simp only [Refresh2, if_neg hvr]
      split_ifs <;> rfl
    · simp only [Refresh2, if_neg hcr]
      split_ifs <;> rfl
    · simp only [Refresh2, if_neg hpr]
      split_ifs <;> rfl
  · intro heq
    unfold Refresh1 at heq
    dsimp only at heq
    cases ht : tempBlock (h.counter + 1) tr (s1, { h with counter := h.counter + 1 }) with
    | none => rw [ht] at heq; simp at heq
    | some sh1 =>
    rw [ht] at heq
    dsimp only at heq
    cases hv : voltBlock (h.counter + 1) vr sh1 with
    | none => rw [hv] at heq; simp at heq
    | some sh2 =>
    rw [hv] at heq
    dsimp only at heq
    cases hcg : chargeBlock (h.counter + 1) cr sh2 with
    | none => rw [hcg] at heq; simp at heq
    | some sh3 =>
    rw [hcg] at heq
    dsimp only at heq
    simp only [Option.some.injEq] at heq
    have hp : powerBlock pr sh3 = (s1', h') := heq
    refine ⟨fun htr => ?_, fun hvr => ?_, fun hcr => ?_, fun hpr => ?_⟩
    · rw [tempBlock_skip _ tr _ htr] at ht
      obtain rfl := Option.some.inj ht
      have f2 := voltBlock_frame _ vr _ sh2 hv
      have f3 := chargeBlock_frame _ cr _ sh3 hcg
      have f4 := powerBlock_frame pr sh3
      have hs : s1'.temperature = (powerBlock pr sh3).1.temperature := by rw [hp]
      rw [hs, f4.1, f3.1, f2.1]
    · have f1 := tempBlock_frame _ tr _ sh1 ht
      rw [voltBlock_skip _ vr _ hvr] at hv
      obtain rfl := Option.some.inj hv
      have f3 := chargeBlock_frame _ cr _ sh3 hcg
      have f4 := powerBlock_frame pr sh3
      have hs : s1'.voltage = (powerBlock pr sh3).1.voltage := by rw [hp]
      rw [hs, f4.2.1, f3.2.1, f1.1]
    · have f1 := tempBlock_frame _ tr _ sh1 ht
      have f2 := voltBlock_frame _ vr _ sh2 hv
      rw [chargeBlock_skip _ cr _ hcr] at hcg
      obtain rfl := Option.some.inj hcg
      have f4 := powerBlock_frame pr sh2
      have hs : s1'.charge = (powerBlock pr sh2).1.charge := by rw [hp]
      rw [hs, f4.2.2, f2.2.1, f1.2.1]
    · have f1 := tempBlock_frame _ tr _ sh1 ht
      have f2 := voltBlock_frame _ vr _ sh2 hv
      have f3 := chargeBlock_frame _ cr _ sh3 hcg
      rw [powerBlock_skip pr sh3 hpr] at hp
      have hs : s1'.power = sh3.1.power := by rw [hp]
      rw [hs, f3.2.2, f2.2.2, f1.2.2]

/-- Witness for `Refresh_error_preserves_fields`: all four reads fail with
reason code 1; both revisions keep every field. -/
theorem Refresh_error_preserves_fields_witness :
    (Refresh2 ⟨2, 3, true, false, 0, 4⟩ ⟨1, 0, 0⟩ ⟨1, 0, 0⟩ ⟨1, 0, 0⟩
        ⟨1, 0, 0⟩).temperature = (⟨2, 3, true, false, 0, 4⟩ : PiSugar2).temperature ∧
    (⟨0, 0, false, false, 0, 7⟩ : PiSugar1).temperature =
      (⟨0, 0, false, false, 0, 7⟩ : PiSugar1).temperature :=
  ⟨(Refresh_error_preserves_fields ⟨2, 3, true, false, 0, 4⟩
      ⟨0, 0, false, false, 0, 7⟩ ⟨[], [], [], [], [], [], [], [], [], 0⟩
      ⟨1, 0, 0⟩ ⟨1, 0, 0⟩ ⟨1, 0, 0⟩ ⟨1, 0, 0⟩ ⟨0, 0, false, false, 0, 7⟩
      ⟨[], [], [], [], [], [], [], [], [], 1⟩).1.1 (by decide),
    ((Refresh_error_preserves_fields ⟨2, 3, true, false, 0, 4⟩
      ⟨0, 0, false, false, 0, 7⟩ ⟨[], [], [], [], [], [], [], [], [], 0⟩
      ⟨1, 0, 0⟩ ⟨1, 0, 0⟩ ⟨1, 0, 0⟩ ⟨1, 0, 0⟩ ⟨0, 0, false, false, 0, 7⟩
      ⟨[], [], [], [], [], [], [], [], [], 1⟩).2 (by decide)).1 (by decide)⟩

end PiSugarVerif
